import Mathlib

/-!
Verification development for the Atlassian user suspend/restore CLI
(`atlassian-user-suspend-cli.py`).

The Python source is shallowly embedded: pure data transformations become
Lean functions, remote HTTP calls become explicit response parameters (one
response value per request the code would issue), and exceptions become
`Except` values.  Wall-clock timestamps and the actual network transport are
outside the model; the `time.sleep` calls are recorded as a list of the
rational sleep durations the code would request.
-/

deriving instance DecidableEq for Except

namespace AtlassianCLI

/-! ## CSV rows

A `csv.DictReader` row is a mapping from column name to cell text; we embed
it as an association list keyed by the column name, with Python's
`row.get(col, '')` and `row[col] = v` as `rowGet` / `rowSet`. -/

/-- Embedding of Python `str.lower()` (ASCII case folding, which is what the
CSV inputs of interest exercise).  Defined on the character list so that it
reduces inside the kernel. -/
def pyLower (s : String) : String := String.mk (s.data.map Char.toLower)

/-- Embedding of Python `str.strip()`: drop leading and trailing whitespace. -/
def pyStrip (s : String) : String :=
  String.mk (((s.data.dropWhile Char.isWhitespace).reverse.dropWhile Char.isWhitespace).reverse)

/-- One CSV row: association list from column name to cell value. -/
abbrev Row := List (String × String)

/-- `row.get(col, '')`: value of the first binding of `col`, `""` if absent. -/
def rowGet : Row → String → String
  | [], _ => ""
  | (k, w) :: rest, col => if k == col then w else rowGet rest col

/-- `row[col] = v`: overwrite the first binding of `col`, or append it. -/
def rowSet (row : Row) (col v : String) : Row :=
  match row with
  | [] => [(col, v)]
  | (k, w) :: rest => if k == col then (k, v) :: rest else (k, w) :: rowSet rest col v

/-- Truthiness of a Python `Optional[str]`: `None` and `""` are falsy. -/
def optTruthy : Option String → Bool
  | some s => s ≠ ""
  | none => false

/-- `find_csv_column(headers, possible_names)`: locate a column by
case-insensitive, whitespace-trimmed name matching, returning the original
header name of the first alias that matches. -/
def find_csv_column (headers : List String) (possible_names : List String) : Option String :=
  let headers_lower := headers.map (fun col => pyStrip (pyLower col))
  possible_names.findSome? (fun name =>
    let name_lower := pyStrip (pyLower name)
    match headers_lower.findIdx? (fun h => h == name_lower) with
    | some i => headers.get? i
    | none => none)

/-- `OPTIONAL_CSV_COLUMNS['user_id']`. -/
def userIdAliases : List String := ["User id", "user_id", "account_id", "Account ID"]

/-- `OPTIONAL_CSV_COLUMNS['user_name']`. -/
def userNameAliases : List String := ["User name", "user_name", "name", "Name"]

/-- `OPTIONAL_CSV_COLUMNS['user_status']`. -/
def userStatusAliases : List String := ["User status", "user_status", "status", "Status"]

/-- The alias list passed for the required email column. -/
def emailAliases : List String := ["email", "Email", "EMAIL", "e-mail"]

/-! ## Data model -/

/-- The `User` dataclass. -/
structure User where
  email : String
  account_id : Option String := none
  name : Option String := none
  status : Option String := none
  account_type : Option String := none
  directory_id : Option String := none
deriving Repr, DecidableEq

/-- The `ProcessingResult` dataclass.  The wall-clock `timestamp` field is
outside the model and omitted. -/
structure ProcessingResult where
  email : String
  account_id : Option String
  success : Bool
  message : String
  lifecycle_action : Option String := none
  access_action : Option String := none
  user_obj : Option User := none
deriving Repr, DecidableEq

/-! ## `AtlassianUserRepository.update_user_status`

Each of the two sub-calls (`lifecycle` then `access`) issues one POST; we
embed the response the transport hands back as either an HTTP status code or
a raised non-rate-limit exception (`requests` errors surface through
`_request` as `AtlassianAPIError`).  `update_user_status` returns the
`(success, message, lifecycle_action, access_action)` tuple, or the raised
error; paired with the list of sub-calls actually issued. -/

/-- Outcome handed to one sub-call of `update_user_status`: the HTTP status
code of the response, or an exception raised while making the request. -/
inductive SubResp where
  | http (code : Nat)
  | exc (msg : String)
deriving Repr, DecidableEq

/-- Marker for which remote POST was issued. -/
inductive SubCall where
  | lifecycle
  | access
deriving Repr, DecidableEq

/-- Exceptions that can escape `update_user_status`: the `KeyError` from the
unguarded `ops[operation]` lookup, or `RateLimitError`. -/
inductive UpdateError where
  | keyError (operation : String)
  | rateLimit (msg : String)
deriving Repr, DecidableEq

/-- The `(success, message, lifecycle_action, access_action)` return value. -/
structure OperationOutcome where
  success : Bool
  message : String
  lifecycle_action : Option String
  access_action : Option String
deriving Repr, DecidableEq

/-- `AtlassianUserRepository.STATUS_CODES` together with the `.get` default
`(False, f"HTTP {status_code}")` applied at the call sites. -/
def STATUS_CODES (code : Nat) : Bool × String :=
  if code = 204 then (true, "successful")
  else if code = 400 then (false, "invalid request")
  else if code = 401 then (false, "authentication error")
  else if code = 403 then (false, "insufficient permissions")
  else if code = 404 then (false, "not found")
  else if code = 429 then (false, "RATE_LIMIT")
  else (false, "HTTP " ++ toString code)

/-- `ops[operation]['actions']`: `None` models the `KeyError` for any other
operation name. -/
def opsActions (operation : String) : Option (String × String) :=
  if operation = "suspend" then some ("disabled", "suspended")
  else if operation = "restore" then some ("enabled", "restored")
  else none

/-- One `try` block of `update_user_status` (`label` is `"Lifecycle"` or
`"Access"`, `action` the corresponding `ops[...]['actions']` entry): maps the
response through `STATUS_CODES`, raises `RateLimitError` on the
`"RATE_LIMIT"` message, otherwise yields the action recorded (if successful)
and the message appended to `messages`. -/
def subStep (label action : String) (resp : SubResp) :
    Except UpdateError (Option String × String) :=
  match resp with
  | .http code =>
    if (STATUS_CODES code).2 = "RATE_LIMIT" then .error (.rateLimit "Rate limit exceeded")
    else if (STATUS_CODES code).1 then .ok (some action, label ++ " " ++ action)
    else .ok (none, label ++ ": " ++ (STATUS_CODES code).2)
  | .exc m => .ok (none, label ++ " error: " ++ m)

/-- Body of `update_user_status` after the `ops[operation]` lookup succeeded:
run the lifecycle sub-call, then the access sub-call, and assemble the
result tuple. -/
def update_with_actions (acts : String × String) (lifecycleResp accessResp : SubResp) :
    Except UpdateError OperationOutcome × List SubCall :=
  match subStep "Lifecycle" acts.1 lifecycleResp with
  | .error e => (.error e, [.lifecycle])
  | .ok lr =>
    match subStep "Access" acts.2 accessResp with
    | .error e => (.error e, [.lifecycle, .access])
    | .ok ar =>
      (.ok { success := lr.1.isSome || ar.1.isSome,
             message := lr.2 ++ " | " ++ ar.2,
             lifecycle_action := lr.1,
             access_action := ar.1 }, [.lifecycle, .access])

/-- `update_user_status(account_id, operation, message)` with the two POST
responses supplied explicitly.  Returns the outcome (or raised error) and
the list of sub-calls issued before returning/raising. -/
def update_user_status (operation : String) (lifecycleResp accessResp : SubResp) :
    Except UpdateError OperationOutcome × List SubCall :=
  match opsActions operation with
  | none => (.error (.keyError operation), [])
  | some acts => update_with_actions acts lifecycleResp accessResp

example : update_user_status "suspend" (.http 404) (.http 204) =
    (.ok { success := true, message := "Lifecycle: not found | Access suspended",
           lifecycle_action := none, access_action := some "suspended" },
     [.lifecycle, .access]) := by decide

example : update_user_status "suspend" (.http 204) (.http 429) =
    (.error (.rateLimit "Rate limit exceeded"), [.lifecycle, .access]) := by decide

example : update_user_status "frobnicate" (.http 204) (.http 204) =
    (.error (.keyError "frobnicate"), []) := by decide

/-! ## Characterisation of the status-code table and sub-calls -/

lemma httpMsg_ne (s : String) : "HTTP " ++ s ≠ "RATE_LIMIT" := by
  intro h
  obtain ⟨l⟩ := s
  have h2 : ("HTTP " ++ String.mk l).data = "RATE_LIMIT".data := congrArg String.data h
  have h3 : ('H' :: 'T' :: 'T' :: 'P' :: ' ' :: l)
      = ['R', 'A', 'T', 'E', '_', 'L', 'I', 'M', 'I', 'T'] := h2
  injection h3 with h4 _
  exact absurd h4 (by decide)

lemma STATUS_CODES_rateLimit (code : Nat) :
    (STATUS_CODES code).2 = "RATE_LIMIT" ↔ code = 429 := by
  unfold STATUS_CODES
  split_ifs with h1 h2 h3 h4 h5 h6 <;> simp_all
  exact httpMsg_ne _

lemma STATUS_CODES_success (code : Nat) :
    (STATUS_CODES code).1 = true ↔ code = 204 := by
  unfold STATUS_CODES
  split_ifs <;> simp_all

/-- A 429 response makes either sub-call raise
`RateLimitError("Rate limit exceeded")`. -/
lemma subStep_429 (label action : String) :
    subStep label action (.http 429) = .error (.rateLimit "Rate limit exceeded") := rfl

/-- The only raising response is HTTP 429, and the raised error is always
`RateLimitError("Rate limit exceeded")`. -/
lemma subStep_error_iff (label action : String) (resp : SubResp) (e : UpdateError) :
    subStep label action resp = .error e ↔
      resp = .http 429 ∧ e = .rateLimit "Rate limit exceeded" := by
  constructor
  · intro h
    cases resp with
    | exc m => simp [subStep] at h
    | http code =>
      simp only [subStep] at h
      by_cases hrl : (STATUS_CODES code).2 = "RATE_LIMIT"
      · rw [if_pos hrl] at h
        injection h with h2
        exact ⟨by rw [(STATUS_CODES_rateLimit code).mp hrl], h2.symm⟩
      · rw [if_neg hrl] at h
        split at h <;> cases h
  · rintro ⟨h1, h2⟩
    subst h1
    subst h2
    rfl

/-- A completed sub-call records an action exactly when the response was
HTTP 204. -/
lemma subStep_ok_some (label action : String) (resp : SubResp)
    (p : Option String × String) (h : subStep label action resp = .ok p) :
    p.1.isSome = true ↔ resp = .http 204 := by
  cases resp with
  | exc m =>
    simp only [subStep] at h
    injection h with h2
    subst h2
    simp
  | http code =>
    simp only [subStep] at h
    by_cases hrl : (STATUS_CODES code).2 = "RATE_LIMIT"
    · rw [if_pos hrl] at h
      cases h
    · rw [if_neg hrl] at h
      by_cases hs : (STATUS_CODES code).1 = true
      · rw [if_pos hs] at h
        injection h with h2
        subst h2
        simp [(STATUS_CODES_success code).mp hs]
      · rw [if_neg hs] at h
        injection h with h2
        subst h2
        simp only [Option.isSome_none, Bool.false_eq_true, false_iff]
        intro hc
        injection hc with hc2
        subst hc2
        exact hs ((STATUS_CODES_success 204).mpr rfl)

/-- A sub-call given a non-429 response never raises. -/
lemma subStep_ne429_ok (label action : String) (resp : SubResp)
    (h : resp ≠ .http 429) : ∃ p, subStep label action resp = .ok p := by
  cases hs : subStep label action resp with
  | error e => exact absurd ((subStep_error_iff label action resp e).mp hs).1 h
  | ok p => exact ⟨p, rfl⟩

lemma opsActions_of_valid (operation : String)
    (hop : operation = "suspend" ∨ operation = "restore") :
    ∃ acts, opsActions operation = some acts := by
  rcases hop with h | h <;> subst h <;> exact ⟨_, rfl⟩

/-- C1: for every pair of sub-call outcomes, `update_user_status` returns
overall `success = true` iff the lifecycle sub-call succeeded (HTTP 204) or
the access sub-call succeeded (HTTP 204); in particular, for lifecycle
HTTP 404 and access HTTP 204 the result has `success = true`, `access_action`
set to the operation's access action (`"suspended"`), and `lifecycle_action`
null. -/
theorem C1_overall_success_iff_or (operation : String)
    (hop : operation = "suspend" ∨ operation = "restore")
    (l a : SubResp) (out : OperationOutcome)
    (h : (update_user_status operation l a).1 = .ok out) :
    (out.success = true ↔ (l = SubResp.http 204 ∨ a = SubResp.http 204)) ∧
    update_user_status "suspend" (.http 404) (.http 204) =
      (.ok { success := true, message := "Lifecycle: not found | Access suspended",
             lifecycle_action := none, access_action := some "suspended" },
       [.lifecycle, .access]) := by
  refine ⟨?_, by decide⟩
  obtain ⟨acts, hacts⟩ := opsActions_of_valid operation hop
  simp only [update_user_status, hacts, update_with_actions] at h
  cases hl : subStep "Lifecycle" acts.1 l with
  | error e => simp [hl] at h
  | ok lr =>
    simp only [hl] at h
    cases ha : subStep "Access" acts.2 a with
    | error e => simp [ha] at h
    | ok ar =>
      simp only [ha, Except.ok.injEq] at h
      subst h
      simp only [Bool.or_eq_true]
      rw [subStep_ok_some _ _ _ _ hl, subStep_ok_some _ _ _ _ ha]

/-- C1 witness. -/
theorem C1_overall_success_iff_or_witness :
    (({ success := true, message := "Lifecycle: not found | Access suspended",
        lifecycle_action := none, access_action := some "suspended" } :
        OperationOutcome).success = true ↔
      (SubResp.http 404 = SubResp.http 204 ∨ SubResp.http 204 = SubResp.http 204)) :=
  (C1_overall_success_iff_or "suspend" (Or.inl rfl) (.http 404) (.http 204) _ (by decide)).1

/-- C2 counterexample: when the access sub-call hits HTTP 429 after the
lifecycle sub-call already completed, the value carried out of
`update_user_status` is the raised `RateLimitError("Rate limit exceeded")`,
and it is identical whether the lifecycle sub-call succeeded (204) or failed
(400) — the already-obtained lifecycle outcome is not preserved in anything
carried out of the invocation. -/
theorem C2_cex_partial_message_lost :
    update_user_status "suspend" (.http 204) (.http 429) =
      (.error (.rateLimit "Rate limit exceeded"), [.lifecycle, .access]) ∧
    update_user_status "suspend" (.http 400) (.http 429) =
      (.error (.rateLimit "Rate limit exceeded"), [.lifecycle, .access]) := by decide

/-- C2 (amended): a rate-limit signal (HTTP 429) on either sub-call raises a
`RateLimitError` that aborts the whole invocation (on a lifecycle 429 the
access sub-call is never issued); the raised error carries only the fixed
message "Rate limit exceeded" — the other sub-call's outcome, even when
already obtained before the abort, is discarded rather than preserved. -/
theorem C2_rate_limit_aborts (operation : String)
    (hop : operation = "suspend" ∨ operation = "restore") (l : SubResp) :
    (update_user_status operation (.http 429) l =
       (.error (.rateLimit "Rate limit exceeded"), [.lifecycle])) ∧
    (l ≠ .http 429 →
       update_user_status operation l (.http 429) =
         (.error (.rateLimit "Rate limit exceeded"), [.lifecycle, .access])) ∧
    (∀ l2 : SubResp, l ≠ .http 429 → l2 ≠ .http 429 →
       update_user_status operation l (.http 429) =
         update_user_status operation l2 (.http 429)) := by
  obtain ⟨acts, hacts⟩ := opsActions_of_valid operation hop
  have habort : ∀ m : SubResp, m ≠ .http 429 →
      update_user_status operation m (.http 429) =
        (.error (.rateLimit "Rate limit exceeded"), [.lifecycle, .access]) := by
    intro m hm
    obtain ⟨p, hp⟩ := subStep_ne429_ok "Lifecycle" acts.1 m hm
    simp only [update_user_status, hacts, update_with_actions, hp, subStep_429]
  refine ⟨?_, habort l, fun l2 h1 h2 => by rw [habort l h1, habort l2 h2]⟩
  simp only [update_user_status, hacts, update_with_actions, subStep_429]

/-- C2 witness. -/
theorem C2_rate_limit_aborts_witness :
    update_user_status "restore" (.http 204) (.http 429) =
      (.error (.rateLimit "Rate limit exceeded"), [.lifecycle, .access]) :=
  (C2_rate_limit_aborts "restore" (Or.inr rfl) (.http 204)).2.1 (by decide)

/-- C10: for every operation string other than "suspend" or "restore",
`update_user_status` fails immediately with the `KeyError` from the
unguarded `ops[operation]` lookup, before issuing any remote call (the
sub-call trace is empty, so remote state is unchanged); conversely any
invocation that issues at least one remote call had
`operation ∈ {suspend, restore}`. -/
theorem C10_invalid_operation_raises (operation : String) (l a : SubResp)
    (h1 : operation ≠ "suspend") (h2 : operation ≠ "restore") :
    update_user_status operation l a = (.error (.keyError operation), []) ∧
    (∀ (op2 : String) (l2 a2 : SubResp),
       (update_user_status op2 l2 a2).2 ≠ [] →
         op2 = "suspend" ∨ op2 = "restore") := by
  constructor
  · unfold update_user_status opsActions
    rw [if_neg h1, if_neg h2]
  · intro op2 l2 a2 hcalls
    by_cases hs : op2 = "suspend"
    · exact Or.inl hs
    by_cases hr : op2 = "restore"
    · exact Or.inr hr
    exfalso
    apply hcalls
    unfold update_user_status opsActions
    rw [if_neg hs, if_neg hr]

/-- C10 witness. -/
theorem C10_invalid_operation_raises_witness :
    update_user_status "deactivate" (.http 204) (.http 204) =
      (.error (.keyError "deactivate"), []) :=
  (C10_invalid_operation_raises "deactivate" (.http 204) (.http 204)
    (by decide) (by decide)).1

/-! ## `UserManager._load_csv` -/

/-- `status in ['active', 'enabled', 'enable']`. -/
def is_active (status : String) : Bool :=
  decide (status ∈ ["active", "enabled", "enable"])

/-- `status in ['suspended', 'suspend']`. -/
def is_suspended (status : String) : Bool :=
  decide (status ∈ ["suspended", "suspend"])

/-- `status in ['deactivated', 'inactive', 'disabled', 'disable', 'deactivate']`. -/
def is_deactivated (status : String) : Bool :=
  decide (status ∈ ["deactivated", "inactive", "disabled", "disable", "deactivate"])

/-- `row.get(status_col, '').lower().strip()`: the classified status text. -/
def statusKey (status_col : String) (row : Row) : String :=
  pyStrip (pyLower (rowGet row status_col))

/-- The admission test of the status-filtering loop body. -/
def admitRow (operation status_col : String) (row : Row) : Bool :=
  let status := statusKey status_col row
  if operation = "suspend" then is_active status || status == ""
  else if operation = "restore" then
    is_suspended status || is_deactivated status || status == ""
  else true

/-- The status-filtering loop (`filtered_rows`). -/
def statusFilter (operation status_col : String) (rows : List Row) : List Row :=
  rows.filter (admitRow operation status_col)

/-- `row[email_col].strip().lower()`: the deduplication key. -/
def dedupKey (email_col : String) (row : Row) : String :=
  pyLower (pyStrip (rowGet row email_col))

/-- The duplicate-removal loop (`seen_emails` / `unique_rows`): keep a row
only when its case-folded email has not been seen yet. -/
def dedupByEmail (email_col : String) (seen : List String) : List Row → List Row
  | [] => []
  | row :: rest =>
    if dedupKey email_col row ∈ seen then dedupByEmail email_col seen rest
    else row :: dedupByEmail email_col (dedupKey email_col row :: seen) rest

/-- Conversion of a deduplicated row to a `User` (email stripped; optional
id/name fields filled only when the resolved column exists and the stripped
cell is non-empty). -/
def rowToUser (email_col : String) (uid_col uname_col : Option String) (row : Row) : User :=
  let u0 : User := { email := pyStrip (rowGet row email_col) }
  let u1 := match uid_col with
    | some c =>
      if pyStrip (rowGet row c) ≠ "" then { u0 with account_id := some (pyStrip (rowGet row c)) }
      else u0
    | none => u0
  match uname_col with
  | some c =>
    if pyStrip (rowGet row c) ≠ "" then { u1 with name := some (pyStrip (rowGet row c)) }
    else u1
  | none => u1

/-- `UserManager._load_csv(csv_file, operation, ignore_status)`: resolve the
columns, strip all cell values, drop rows with an empty email cell, apply
the status filter (unless `ignore_status` is set or no status column was
found), deduplicate by case-folded email, and convert to `User` records. -/
def load_csv (headers : List String) (rawRows : List Row) (operation : String)
    (ignore_status : Bool) : Except String (List User) :=
  let headers := headers.map pyStrip
  match find_csv_column headers emailAliases with
  | none => .error "Required email column not found in CSV"
  | some email_col =>
    let uid_col := find_csv_column headers userIdAliases
    let uname_col := find_csv_column headers userNameAliases
    let ustatus_col := find_csv_column headers userStatusAliases
    let all_rows := (rawRows.map (fun row => row.map (fun p => (p.1, pyStrip p.2)))).filter
      (fun row => pyStrip (rowGet row email_col) ≠ "")
    let filtered_rows :=
      if ignore_status then all_rows
      else
        match ustatus_col with
        | some status_col => statusFilter operation status_col all_rows
        | none => all_rows
    let unique_rows := dedupByEmail email_col [] filtered_rows
    .ok (unique_rows.map (rowToUser email_col uid_col uname_col))

example : load_csv ["email", "status"]
    [[("email", "a@x.com"), ("status", "active")],
     [("email", "a@x.com"), ("status", "suspended")]] "suspend" true =
    .ok [{ email := "a@x.com" }] := by decide

example : load_csv ["Email", "User id", "User status"]
    [[("Email", " b@x.com "), ("User id", "id1"), ("User status", "Suspended")],
     [("Email", "c@x.com"), ("User id", ""), ("User status", "active")]]
    "restore" false =
    .ok [{ email := "b@x.com", account_id := some "id1" }] := by decide

/-! ## Properties of the status filter and the deduplication loop -/

lemma admitRow_suspend (status_col : String) (row : Row) :
    admitRow "suspend" status_col row = true ↔
      is_active (statusKey status_col row) = true ∨ statusKey status_col row = "" := by
  simp [admitRow]

lemma admitRow_restore (status_col : String) (row : Row) :
    admitRow "restore" status_col row = true ↔
      is_suspended (statusKey status_col row) = true ∨
      is_deactivated (statusKey status_col row) = true ∨
      statusKey status_col row = "" := by
  simp [admitRow, or_assoc]

/-- The three status keyword classes are pairwise disjoint. -/
lemma active_not_suspended_deactivated (s : String) (h : is_active s = true) :
    is_suspended s = false ∧ is_deactivated s = false := by
  simp only [is_active, decide_eq_true_eq, List.mem_cons, List.not_mem_nil, or_false] at h
  rcases h with h | h | h <;> subst h <;> exact ⟨by decide, by decide⟩

lemma suspended_not_active (s : String) (h : is_suspended s = true) :
    is_active s = false := by
  simp only [is_suspended, decide_eq_true_eq, List.mem_cons, List.not_mem_nil, or_false] at h
  rcases h with h | h <;> subst h <;> decide

lemma deactivated_not_active (s : String) (h : is_deactivated s = true) :
    is_active s = false := by
  simp only [is_deactivated, decide_eq_true_eq, List.mem_cons, List.not_mem_nil, or_false] at h
  rcases h with h | h | h | h | h <;> subst h <;> decide

lemma empty_not_classified :
    is_active "" = false ∧ is_suspended "" = false ∧ is_deactivated "" = false := by decide

/-- The deduplication loop output is a sublist of its input (first
occurrences kept, file order preserved). -/
lemma dedup_sublist (email_col : String) :
    ∀ (rows : List Row) (seen : List String),
      (dedupByEmail email_col seen rows).Sublist rows := by
  intro rows
  induction rows with
  | nil => intro seen; simp [dedupByEmail]
  | cons r rest ih =>
    intro seen
    simp only [dedupByEmail]
    by_cases hc : dedupKey email_col r ∈ seen
    · rw [if_pos hc]
      exact (ih seen).cons r
    · rw [if_neg hc]
      exact (ih _).cons₂ r

lemma dedup_subset (email_col : String) (rows : List Row) (seen : List String)
    (row : Row) (h : row ∈ dedupByEmail email_col seen rows) : row ∈ rows :=
  (dedup_sublist email_col rows seen).subset h

/-- No row kept by the loop has a key that was already seen. -/
lemma dedup_key_not_seen (email_col : String) :
    ∀ (rows : List Row) (seen : List String) (row : Row),
      row ∈ dedupByEmail email_col seen rows → dedupKey email_col row ∉ seen := by
  intro rows
  induction rows with
  | nil => intro seen row h; simp [dedupByEmail] at h
  | cons r rest ih =>
    intro seen row h
    simp only [dedupByEmail] at h
    by_cases hc : dedupKey email_col r ∈ seen
    · rw [if_pos hc] at h
      exact ih _ _ h
    · rw [if_neg hc] at h
      rcases List.mem_cons.mp h with h1 | h1
      · exact h1 ▸ hc
      · have h2 := ih _ _ h1
        exact fun hmem => h2 (List.mem_cons_of_mem _ hmem)

/-- The kept rows have pairwise distinct case-folded email keys. -/
lemma dedup_keys_nodup (email_col : String) :
    ∀ (rows : List Row) (seen : List String),
      ((dedupByEmail email_col seen rows).map (dedupKey email_col)).Nodup := by
  intro rows
  induction rows with
  | nil => intro seen; simp [dedupByEmail]
  | cons r rest ih =>
    intro seen
    simp only [dedupByEmail]
    by_cases hc : dedupKey email_col r ∈ seen
    · rw [if_pos hc]
      exact ih seen
    · rw [if_neg hc]
      simp only [List.map_cons, List.nodup_cons]
      refine ⟨?_, ih _⟩
      intro hmem
      rcases List.mem_map.mp hmem with ⟨row, hrow, hkey⟩
      apply dedup_key_not_seen email_col rest _ row hrow
      rw [hkey]
      exact List.mem_cons_self _ _

/-- The first occurrence of a key is kept by the loop. -/
lemma dedup_keeps_first (email_col : String) :
    ∀ (l1 : List Row) (row : Row) (l2 : List Row) (seen : List String),
      (∀ x ∈ l1, dedupKey email_col x ≠ dedupKey email_col row) →
      dedupKey email_col row ∉ seen →
      row ∈ dedupByEmail email_col seen (l1 ++ row :: l2) := by
  intro l1
  induction l1 with
  | nil =>
    intro row l2 seen _ hseen
    simp only [List.nil_append, dedupByEmail]
    rw [if_neg hseen]
    exact List.mem_cons_self _ _
  | cons x l1 ih =>
    intro row l2 seen hne hseen
    simp only [List.cons_append, dedupByEmail]
    by_cases hc : dedupKey email_col x ∈ seen
    · rw [if_pos hc]
      exact ih row l2 seen (fun y hy => hne y (List.mem_cons_of_mem _ hy)) hseen
    · rw [if_neg hc]
      refine List.mem_cons_of_mem _
        (ih row l2 _ (fun y hy => hne y (List.mem_cons_of_mem _ hy)) ?_)
      intro hmem
      rcases List.mem_cons.mp hmem with h1 | h1
      · exact hne x (List.mem_cons_self _ _) h1.symm
      · exact hseen h1

/-- C6: with status filtering active, the Loader admits for a `suspend`
operation exactly the rows classified active-like or empty, and for a
`restore` operation exactly the rows classified suspended-like,
deactivated-like or empty; hence no row surviving to the deduplicated
output is suspended-like or deactivated-like (suspend) resp. active-like
(restore). -/
theorem C6_status_filter_exact (status_col email_col : String) (rows : List Row) (row : Row) :
    (row ∈ statusFilter "suspend" status_col rows ↔
      row ∈ rows ∧
        (is_active (statusKey status_col row) = true ∨ statusKey status_col row = "")) ∧
    (row ∈ statusFilter "restore" status_col rows ↔
      row ∈ rows ∧
        (is_suspended (statusKey status_col row) = true ∨
         is_deactivated (statusKey status_col row) = true ∨
         statusKey status_col row = "")) ∧
    (row ∈ dedupByEmail email_col [] (statusFilter "suspend" status_col rows) →
      is_suspended (statusKey status_col row) = false ∧
      is_deactivated (statusKey status_col row) = false) ∧
    (row ∈ dedupByEmail email_col [] (statusFilter "restore" status_col rows) →
      is_active (statusKey status_col row) = false) := by
  have hsus : row ∈ statusFilter "suspend" status_col rows ↔
      row ∈ rows ∧
        (is_active (statusKey status_col row) = true ∨ statusKey status_col row = "") := by
    rw [statusFilter, List.mem_filter, admitRow_suspend]
  have hres : row ∈ statusFilter "restore" status_col rows ↔
      row ∈ rows ∧
        (is_suspended (statusKey status_col row) = true ∨
         is_deactivated (statusKey status_col row) = true ∨
         statusKey status_col row = "") := by
    rw [statusFilter, List.mem_filter, admitRow_restore]
  refine ⟨hsus, hres, ?_, ?_⟩
  · intro h
    have h2 := (hsus.mp (dedup_subset _ _ _ _ h)).2
    rcases h2 with h2 | h2
    · exact active_not_suspended_deactivated _ h2
    · rw [h2]
      exact ⟨empty_not_classified.2.1, empty_not_classified.2.2⟩
  · intro h
    have h2 := (hres.mp (dedup_subset _ _ _ _ h)).2
    rcases h2 with h2 | h2 | h2
    · exact suspended_not_active _ h2
    · exact deactivated_not_active _ h2
    · rw [h2]
      exact empty_not_classified.1

/-- C6 witness. -/
theorem C6_status_filter_exact_witness :
    [("email", "a@x.com"), ("status", "active")] ∈
        statusFilter "suspend" "status" [[("email", "a@x.com"), ("status", "active")]] ∧
    is_suspended (statusKey "status" [("email", "a@x.com"), ("status", "active")]) = false :=
  have h := C6_status_filter_exact "status" "email"
    [[("email", "a@x.com"), ("status", "active")]] [("email", "a@x.com"), ("status", "active")]
  have hmem : [("email", "a@x.com"), ("status", "active")] ∈
      statusFilter "suspend" "status" [[("email", "a@x.com"), ("status", "active")]] :=
    h.1.mpr ⟨by decide, Or.inl (by decide)⟩
  ⟨hmem, ((h.2.2.1 (by
    simp only [statusFilter] at hmem ⊢
    simp [dedupByEmail]))).1⟩

/-- C7: the Loader's deduplication keeps at most one row per case-folded
email (the first occurrence, in file order): the kept keys are pairwise
distinct, the output is a sublist of the input, the first occurrence of any
key is kept; and on the two-row roster with a duplicated email the Loader
yields exactly one record carrying the first row's data. -/
theorem C7_dedup_keeps_first_occurrence (email_col : String)
    (rows l1 l2 : List Row) (row : Row) :
    ((dedupByEmail email_col [] rows).map (dedupKey email_col)).Nodup ∧
    (dedupByEmail email_col [] rows).Sublist rows ∧
    ((∀ x ∈ l1, dedupKey email_col x ≠ dedupKey email_col row) →
      row ∈ dedupByEmail email_col [] (l1 ++ row :: l2)) ∧
    load_csv ["email", "status"]
      [[("email", "a@x.com"), ("status", "active")],
       [("email", "a@x.com"), ("status", "suspended")]] "suspend" true =
      .ok [{ email := "a@x.com" }] :=
  ⟨dedup_keys_nodup email_col rows [],
   dedup_sublist email_col rows [],
   fun h => dedup_keeps_first email_col l1 row l2 [] h (List.not_mem_nil _),
   by decide⟩

/-- C7 witness. -/
theorem C7_dedup_keeps_first_occurrence_witness :
    [("email", "b@x.com")] ∈
      dedupByEmail "email" []
        ([[("email", "a@x.com")]] ++ [("email", "b@x.com")] :: [[("email", "B@x.com")]]) :=
  (C7_dedup_keeps_first_occurrence "email" [] [[("email", "a@x.com")]] [[("email", "B@x.com")]]
    [("email", "b@x.com")]).2.2.1 (by decide)

/-! ## `UserManager._process_user`

The repository interactions of one item are supplied explicitly: what
`find_user` would return, and the POST responses of the first and (if
reached) retry invocation of `update_user_status`.  Sleeping is modelled by
recording the requested back-off durations (as exact rationals; the float
arithmetic involved — doubling and comparison against 5.0 — is exact). -/

/-- The enrichment of a roster user from a `find_user` hit. -/
def enrichUser (user found : User) : User :=
  { user with
    account_id := found.account_id,
    name := if optTruthy found.name && !optTruthy user.name then found.name else user.name }

/-- The pair of POST responses consumed by one `update_user_status` call. -/
abbrev AttemptResps := SubResp × SubResp

/-- Builds the `ProcessingResult` from a completed `update_user_status`. -/
def resultOfOutcome (u : User) (r : OperationOutcome) : ProcessingResult :=
  { email := u.email, account_id := u.account_id, success := r.success,
    message := r.message, lifecycle_action := r.lifecycle_action,
    access_action := r.access_action, user_obj := some u }

/-- `UserManager._process_user(user, operation, dry_run, delay)`: resolve a
missing account id through `find_user`, handle dry run, otherwise call
`update_user_status`, retrying exactly once after a `RateLimitError` with a
back-off of `min(delay * 2, 5.0)`.  Returns the produced result or the
escaping exception, the number of `update_user_status` invocations, and the
requested back-off sleeps. -/
def process_user (user : User) (operation : String) (dry_run : Bool) (delay : ℚ)
    (findRes : Option User) (resp1 resp2 : AttemptResps) :
    Except UpdateError ProcessingResult × Nat × List ℚ :=
  let resolved : Option User :=
    if optTruthy user.account_id then some user
    else
      match findRes with
      | some found => some (enrichUser user found)
      | none => none
  match resolved with
  | none =>
    (.ok { email := user.email, account_id := none, success := false,
           message := "User not found", user_obj := some user }, 0, [])
  | some u =>
    if dry_run then
      (.ok { email := u.email, account_id := u.account_id, success := true,
             message := "Ready for " ++ operation ++ " operation (DRY RUN)",
             user_obj := some u }, 0, [])
    else
      match (update_user_status operation resp1.1 resp1.2).1 with
      | .ok r => (.ok (resultOfOutcome u r), 1, [])
      | .error (.keyError op) => (.error (.keyError op), 1, [])
      | .error (.rateLimit _) =>
        let new_delay := min (delay * 2) 5
        match (update_user_status operation resp2.1 resp2.2).1 with
        | .ok r => (.ok (resultOfOutcome u r), 2, [new_delay])
        | .error e => (.error e, 2, [new_delay])

/-! ## `UserManager.process_csv` per-item loop with `_resume_context`

The loop is modelled over an abstract per-item step (so it can be
instantiated with `process_user` wired to concrete responses).  The
checkpoint file is a value `Option (List String)` (`none` = absent/deleted);
`_save_progress` writes the current processed set, the final
`Path(resume_file).unlink(missing_ok=True)` deletes it. -/

/-- Observable outcome of the `_resume_context`-wrapped per-item loop. -/
structure RunOutcome (ε : Type) where
  result : Except ε Unit
  attempted : List String
  processedSet : List String
  checkpoint : Option (List String)
  results : List ProcessingResult
  csvUpdated : Bool

/-- The per-item loop: on a step exception, `_resume_context` persists the
checkpoint and re-raises; on success the email is added to the processed
set, with a flush every 10th processed item; after the loop the checkpoint
file is deleted and — when live with at least one success — the roster
rewrite is triggered. -/
def run_go {ε : Type} (step : User → Except ε ProcessingResult) (dry_run : Bool) :
    List User → List String → List String → List ProcessingResult →
    Option (List String) → RunOutcome ε
  | [], processed, attempted, results, _file =>
    { result := .ok (), attempted := attempted.reverse, processedSet := processed,
      checkpoint := none, results := results.reverse,
      csvUpdated := !dry_run && results.any (fun r => r.success) }
  | u :: rest, processed, attempted, results, file =>
    match step u with
    | .error e =>
      { result := .error e, attempted := (u.email :: attempted).reverse,
        processedSet := processed, checkpoint := some processed,
        results := results.reverse, csvUpdated := false }
    | .ok r =>
      let processed2 := processed.insert u.email
      let file2 := if processed2.length % 10 = 0 then some processed2 else file
      run_go step dry_run rest processed2 (u.email :: attempted) (r :: results) file2

/-- `process_csv` from the checkpoint filter onwards: drop users whose
exact email string is in the loaded checkpoint set, then run the loop. -/
def run_process {ε : Type} (loaded : List String) (users : List User)
    (step : User → Except ε ProcessingResult) (dry_run : Bool)
    (initialFile : Option (List String)) : RunOutcome ε :=
  run_go step dry_run (users.filter (fun u => !loaded.contains u.email))
    loaded [] [] initialFile

/-- Every email attempted by the loop comes from the initial `attempted`
accumulator or from the worklist. -/
lemma run_go_attempted_from {ε : Type} (step : User → Except ε ProcessingResult)
    (dry_run : Bool) :
    ∀ (todo : List User) (processed attempted : List String)
      (results : List ProcessingResult) (file : Option (List String)) (x : String),
      x ∈ (run_go step dry_run todo processed attempted results file).attempted →
      x ∈ attempted ∨ x ∈ todo.map User.email := by
  intro todo
  induction todo with
  | nil =>
    intro processed attempted results file x h
    simp only [run_go, List.mem_reverse] at h
    exact Or.inl h
  | cons u rest ih =>
    intro processed attempted results file x h
    simp only [run_go] at h
    cases hs : step u with
    | error e =>
      rw [hs] at h
      simp only [List.mem_reverse, List.mem_cons] at h
      rcases h with h | h
      · exact Or.inr (by simp [h])
      · exact Or.inl h
    | ok r =>
      rw [hs] at h
      rcases ih _ _ _ _ x h with h1 | h1
      · rcases List.mem_cons.mp h1 with h2 | h2
        · exact Or.inr (by simp [h2])
        · exact Or.inl h2
      · exact Or.inr (by rw [List.map_cons]; exact List.mem_cons_of_mem _ h1)

/-- Loop invariants for the checkpoint file: clean completion deletes it,
a propagating step failure persists the processed set first, and the
processed set only grows. -/
lemma run_go_checkpoint {ε : Type} (step : User → Except ε ProcessingResult)
    (dry_run : Bool) :
    ∀ (todo : List User) (processed attempted : List String)
      (results : List ProcessingResult) (file : Option (List String)),
      ((run_go step dry_run todo processed attempted results file).result = .ok () →
        (run_go step dry_run todo processed attempted results file).checkpoint = none) ∧
      (∀ e, (run_go step dry_run todo processed attempted results file).result = .error e →
        (run_go step dry_run todo processed attempted results file).checkpoint =
          some (run_go step dry_run todo processed attempted results file).processedSet) ∧
      processed ⊆ (run_go step dry_run todo processed attempted results file).processedSet := by
  intro todo
  induction todo with
  | nil =>
    intro processed attempted results file
    refine ⟨fun _ => rfl, ?_, fun x hx => hx⟩
    intro e he
    simp [run_go] at he
  | cons u rest ih =>
    intro processed attempted results file
    simp only [run_go]
    cases hs : step u with
    | error e =>
      refine ⟨?_, fun e2 _ => rfl, fun x hx => hx⟩
      intro h
      simp at h
    | ok r =>
      refine ⟨(ih _ _ _ _).1, (ih _ _ _ _).2.1, ?_⟩
      intro x hx
      exact (ih _ _ _ _).2.2 (List.mem_insert_of_mem hx)

/-- C4: no email present in the loaded checkpoint set is handed to the
per-item step in that resumed run; on clean completion the checkpoint file
is deleted; on any propagating per-item failure the checkpoint (the current
processed set, which contains the loaded set) is persisted before the
failure escapes. -/
theorem C4_checkpoint_resume_invariants {ε : Type} (loaded : List String)
    (users : List User) (step : User → Except ε ProcessingResult)
    (dry_run : Bool) (initialFile : Option (List String)) :
    (∀ e ∈ loaded,
      e ∉ (run_process loaded users step dry_run initialFile).attempted) ∧
    ((run_process loaded users step dry_run initialFile).result = .ok () →
      (run_process loaded users step dry_run initialFile).checkpoint = none) ∧
    (∀ err, (run_process loaded users step dry_run initialFile).result = .error err →
      (run_process loaded users step dry_run initialFile).checkpoint =
        some (run_process loaded users step dry_run initialFile).processedSet) ∧
    loaded ⊆ (run_process loaded users step dry_run initialFile).processedSet := by
  have hck := run_go_checkpoint step dry_run
    (users.filter (fun u => !loaded.contains u.email)) loaded [] [] initialFile
  refine ⟨?_, hck.1, hck.2.1, hck.2.2⟩
  intro e he hmem
  rcases run_go_attempted_from step dry_run _ _ _ _ _ _ hmem with h | h
  · exact List.not_mem_nil e h
  · rcases List.mem_map.mp h with ⟨u, hu, hue⟩
    rcases List.mem_filter.mp hu with ⟨_, hfilt⟩
    rw [hue] at hfilt
    simp at hfilt
    exact hfilt he

/-- C4 witness. -/
theorem C4_checkpoint_resume_invariants_witness :
    ("x@y.com" ∉ (run_process ["x@y.com"] [{ email := "x@y.com" }, { email := "z@y.com" }]
        (fun u => (.ok { email := u.email, account_id := none, success := true,
                         message := "ok" } : Except String ProcessingResult)) false
        none).attempted) ∧
    (run_process ["x@y.com"] [{ email := "x@y.com" }, { email := "z@y.com" }]
        (fun u => (.ok { email := u.email, account_id := none, success := true,
                         message := "ok" } : Except String ProcessingResult)) false
        none).checkpoint = none :=
  have h := C4_checkpoint_resume_invariants ["x@y.com"]
    [{ email := "x@y.com" }, { email := "z@y.com" }]
    (fun u => (.ok { email := u.email, account_id := none, success := true,
                     message := "ok" } : Except String ProcessingResult)) false none
  ⟨h.1 "x@y.com" (by decide), h.2.1 (by decide)⟩

/-- C3: for a user with a resolved account id in a live run, a first-call
`RateLimitError` leads to a back-off of `min(delay * 2, 5.0)` and exactly
one retry (two `update_user_status` invocations in total); a second
`RateLimitError` escapes `_process_user` unswallowed and, via the per-item
loop, terminates the run. -/
theorem C3_rate_limit_retry_once (user : User) (operation : String) (delay : ℚ)
    (findRes : Option User) (resp1 resp2 : AttemptResps)
    (hid : optTruthy user.account_id = true)
    (hrl : (update_user_status operation resp1.1 resp1.2).1 =
      .error (.rateLimit "Rate limit exceeded")) :
    ((process_user user operation false delay findRes resp1 resp2).2.1 = 2 ∧
     (process_user user operation false delay findRes resp1 resp2).2.2 =
       [min (delay * 2) 5]) ∧
    (∀ r, (update_user_status operation resp2.1 resp2.2).1 = .ok r →
      (process_user user operation false delay findRes resp1 resp2).1 =
        .ok (resultOfOutcome user r)) ∧
    (∀ e, (update_user_status operation resp2.1 resp2.2).1 = .error e →
      (process_user user operation false delay findRes resp1 resp2).1 = .error e ∧
      (run_process [] [user]
        (fun v => (process_user v operation false delay findRes resp1 resp2).1)
        false none).result = .error e) := by
  have hred : process_user user operation false delay findRes resp1 resp2 =
      (match (update_user_status operation resp2.1 resp2.2).1 with
       | .ok r => (.ok (resultOfOutcome user r), 2, [min (delay * 2) 5])
       | .error e => (.error e, 2, [min (delay * 2) 5])) := by
    simp only [process_user, hid, if_true, hrl]
    rfl
  cases h2 : (update_user_status operation resp2.1 resp2.2).1 with
  | ok r =>
    rw [h2] at hred
    refine ⟨by rw [hred]; exact ⟨rfl, rfl⟩, ?_, ?_⟩
    · intro r2 hr2
      injection hr2 with hr2
      rw [hred, hr2]
    · intro e he
      cases he
  | error e =>
    rw [h2] at hred
    refine ⟨by rw [hred]; exact ⟨rfl, rfl⟩, ?_, ?_⟩
    · intro r2 hr2
      cases hr2
    · intro e2 he2
      injection he2 with he2
      subst he2
      have hstep : (process_user user operation false delay findRes resp1 resp2).1 =
          .error e := by rw [hred]
      refine ⟨hstep, ?_⟩
      show (run_go (fun v => (process_user v operation false delay findRes resp1 resp2).1)
        false [user] [] [] [] none).result = .error e
      simp only [run_go, hstep]

/-- C3 witness: with `delay = 1/2` the single back-off is
`min(1/2 * 2, 5) = 1`, and the twice-rate-limited item aborts the run. -/
theorem C3_rate_limit_retry_once_witness :
    ((process_user { email := "a@x.com", account_id := some "id1" } "suspend" false (1/2)
        none (SubResp.http 429, SubResp.http 204)
        (SubResp.http 204, SubResp.http 429)).2.1 = 2 ∧
     (process_user { email := "a@x.com", account_id := some "id1" } "suspend" false (1/2)
        none (SubResp.http 429, SubResp.http 204)
        (SubResp.http 204, SubResp.http 429)).2.2 = [min ((1 : ℚ)/2 * 2) 5]) ∧
    (run_process [] [{ email := "a@x.com", account_id := some "id1" }]
        (fun v => (process_user v "suspend" false (1/2) none
          (SubResp.http 429, SubResp.http 204) (SubResp.http 204, SubResp.http 429)).1)
        false none).result = .error (.rateLimit "Rate limit exceeded") :=
  have h := C3_rate_limit_retry_once { email := "a@x.com", account_id := some "id1" }
    "suspend" (1/2) none (SubResp.http 429, SubResp.http 204)
    (SubResp.http 204, SubResp.http 429) (by decide) (by decide)
  ⟨h.1, (h.2.2 (.rateLimit "Rate limit exceeded") (by decide)).2⟩

/-! ## `UserManager._update_csv_statuses` (roster rewrite) -/

/-- A roster file: header names plus data rows. -/
structure CsvFile where
  headers : List String
  rows : List Row
deriving Repr, DecidableEq

/-- Find-or-create of an optional column: when absent, the column is
appended to the headers and every row gets an empty cell for it. -/
def ensureColumn (headers : List String) (rows : List Row) (found : Option String)
    (defaultName : String) : List String × List Row × String :=
  match found with
  | some c => (headers, rows, c)
  | none =>
    (headers ++ [defaultName], rows.map (fun r => rowSet r defaultName ""), defaultName)

/-- `new_status = 'suspended' if operation == 'suspend' else 'active'`. -/
def newStatusFor (operation : String) : String :=
  if operation = "suspend" then "suspended" else "active"

/-- The update applied to the matched row: set the status cell, overwrite
the account-id cell whenever the enriched record has a (truthy) account id,
and fill the name cell only when the record has a name and the cell is
empty after stripping. -/
def updateMatchedRow (status_col account_id_col name_col new_status : String)
    (u : User) (row : Row) : Row :=
  let row1 := rowSet row status_col new_status
  let row2 :=
    if optTruthy u.account_id then rowSet row1 account_id_col (u.account_id.getD "")
    else row1
  if optTruthy u.name && (pyStrip (rowGet row2 name_col) == "") then
    rowSet row2 name_col (u.name.getD "")
  else row2

/-- The inner `for row in rows: ... break` of `_update_csv_statuses`: update
the first row whose stripped, case-folded email cell equals the result's
case-folded email; report whether some row was updated. -/
def applyResultToRows (email_col status_col account_id_col name_col new_status : String)
    (res : ProcessingResult) : List Row → List Row × Bool
  | [] => ([], false)
  | row :: rest =>
    if pyLower (pyStrip (rowGet row email_col)) == pyLower res.email then
      let row3 := match res.user_obj with
        | some u => updateMatchedRow status_col account_id_col name_col new_status u row
        | none => rowSet row status_col new_status
      (row3 :: rest, true)
    else
      let tail := applyResultToRows email_col status_col account_id_col name_col
        new_status res rest
      (row :: tail.1, tail.2)

/-- `UserManager._update_csv_statuses(csv_file, results, operation)`: resolve
or create the status / account-id / name columns, update the matching row of
each successful result, and rewrite the file only when at least one row was
updated (`success_count > 0`); on a missing email column, or when nothing
was updated, the file is left unchanged. -/
def update_csv_statuses (file : CsvFile) (results : List ProcessingResult)
    (operation : String) : CsvFile :=
  let headers := file.headers.map pyStrip
  match find_csv_column headers emailAliases with
  | none => file
  | some email_col =>
    let s1 := ensureColumn headers file.rows
      (find_csv_column headers userStatusAliases) "User status"
    let s2 := ensureColumn s1.1 s1.2.1
      (find_csv_column s1.1 userIdAliases) "User id"
    let s3 := ensureColumn s2.1 s2.2.1
      (find_csv_column s2.1 userNameAliases) "User name"
    let status_col := s1.2.2
    let account_id_col := s2.2.2
    let name_col := s3.2.2
    let new_status := newStatusFor operation
    let final := results.foldl (fun (acc : List Row × Nat) res =>
      if res.success && res.user_obj.isSome then
        let ar := applyResultToRows email_col status_col account_id_col name_col
          new_status res acc.1
        (ar.1, acc.2 + (if ar.2 then 1 else 0))
      else acc) (s3.2.1, 0)
    if final.2 > 0 then { headers := s3.1, rows := final.1 } else file

example :
    update_csv_statuses
      { headers := ["email", "status"], rows := [[("email", "A@X.COM"), ("status", "")]] }
      [{ email := "a@x.com", account_id := some "id9", success := true, message := "m",
         user_obj := some { email := "a@x.com", account_id := some "id9" } }] "suspend" =
    { headers := ["email", "status", "User id", "User name"],
      rows := [[("email", "A@X.COM"), ("status", "suspended"), ("User id", "id9"),
                ("User name", "")]] } := by decide

/-! ## Properties of the roster rewrite -/

lemma rowGet_rowSet_self (row : Row) (c v : String) :
    rowGet (rowSet row c v) c = v := by
  induction row with
  | nil => simp [rowSet, rowGet]
  | cons p rest ih =>
    obtain ⟨k, w⟩ := p
    simp only [rowSet]
    by_cases h : (k == c) = true
    · rw [if_pos h]
      simp [rowGet, h]
    · rw [if_neg h]
      simp [rowGet, h, ih]

lemma rowGet_rowSet_ne (row : Row) (c c2 v : String) (h : ¬ c2 = c) :
    rowGet (rowSet row c v) c2 = rowGet row c2 := by
  have hcc : (c == c2) = false := by
    simp only [beq_eq_false_iff_ne, ne_eq]
    exact fun hc => h hc.symm
  induction row with
  | nil => simp [rowSet, rowGet, hcc]
  | cons p rest ih =>
    obtain ⟨k, w⟩ := p
    simp only [rowSet]
    by_cases hk : (k == c) = true
    · rw [if_pos hk]
      have hk2 : (k == c2) = false := by
        have hkc : k = c := by simpa using hk
        rw [hkc]
        exact hcc
      simp [rowGet, hk2]
    · rw [if_neg hk]
      by_cases hk2 : (k == c2) = true
      · simp [rowGet, hk2]
      · simp [rowGet, hk2, ih]

/-- The matched row's status cell is set to `new_status`. -/
lemma updateMatchedRow_status (sc ic nc ns : String) (u : User) (row : Row)
    (h1 : ¬ sc = ic) (h2 : ¬ sc = nc) :
    rowGet (updateMatchedRow sc ic nc ns u row) sc = ns := by
  simp only [updateMatchedRow]
  cases hid : optTruthy u.account_id <;>
    simp only [hid, Bool.false_eq_true, if_false, if_true] <;>
    split <;>
    simp [rowGet_rowSet_ne, rowGet_rowSet_self, h1, h2]

/-- The matched row's account-id cell is overwritten whenever the enriched
record carries a (truthy) account id — independent of its prior contents. -/
lemma updateMatchedRow_id_set (sc ic nc ns : String) (u : User) (row : Row)
    (h3 : ¬ ic = nc) (hid : optTruthy u.account_id = true) :
    rowGet (updateMatchedRow sc ic nc ns u row) ic = u.account_id.getD "" := by
  simp only [updateMatchedRow, hid, if_true]
  split <;> simp [rowGet_rowSet_ne, rowGet_rowSet_self, h3]

/-- Without a truthy account id the account-id cell is untouched. -/
lemma updateMatchedRow_id_kept (sc ic nc ns : String) (u : User) (row : Row)
    (h1 : ¬ ic = sc) (h3 : ¬ ic = nc) (hid : optTruthy u.account_id = false) :
    rowGet (updateMatchedRow sc ic nc ns u row) ic = rowGet row ic := by
  simp only [updateMatchedRow, hid, Bool.false_eq_true, if_false]
  split <;> simp [rowGet_rowSet_ne, h1, h3]

/-- The name cell is filled when the record has a name and the cell was
empty after stripping. -/
lemma updateMatchedRow_name_fill (sc ic nc ns : String) (u : User) (row : Row)
    (h2 : ¬ nc = sc) (h3 : ¬ nc = ic) (hn : optTruthy u.name = true)
    (hempty : pyStrip (rowGet row nc) = "") :
    rowGet (updateMatchedRow sc ic nc ns u row) nc = u.name.getD "" := by
  simp only [updateMatchedRow]
  cases hid : optTruthy u.account_id <;>
    simp [hid, hn, hempty, rowGet_rowSet_ne, rowGet_rowSet_self, h2, h3]

/-- A non-empty name cell is never overwritten. -/
lemma updateMatchedRow_name_kept (sc ic nc ns : String) (u : User) (row : Row)
    (h2 : ¬ nc = sc) (h3 : ¬ nc = ic) (hne : ¬ pyStrip (rowGet row nc) = "") :
    rowGet (updateMatchedRow sc ic nc ns u row) nc = rowGet row nc := by
  simp only [updateMatchedRow]
  cases hid : optTruthy u.account_id <;>
    simp [hid, hne, rowGet_rowSet_ne, h2, h3]

/-- The rewrite updates the first matching row and leaves the rest alone. -/
lemma applyResult_first_match (ec sc ic nc ns : String) (u : User) (row : Row)
    (rest : List Row) (res : ProcessingResult)
    (hmatch : pyLower (pyStrip (rowGet row ec)) = pyLower res.email)
    (hobj : res.user_obj = some u) :
    applyResultToRows ec sc ic nc ns res (row :: rest) =
      (updateMatchedRow sc ic nc ns u row :: rest, true) := by
  simp [applyResultToRows, hmatch, hobj]

/-- The roster rewrite is triggered exactly by a clean live run with at
least one success; an aborted run never triggers it. -/
lemma run_go_csvUpdated {ε : Type} (step : User → Except ε ProcessingResult)
    (dry_run : Bool) :
    ∀ (todo : List User) (processed attempted : List String)
      (results : List ProcessingResult) (file : Option (List String)),
      ((run_go step dry_run todo processed attempted results file).result = .ok () →
        (run_go step dry_run todo processed attempted results file).csvUpdated =
          (!dry_run &&
            (run_go step dry_run todo processed attempted results file).results.any
              (fun r => r.success))) ∧
      (∀ e, (run_go step dry_run todo processed attempted results file).result = .error e →
        (run_go step dry_run todo processed attempted results file).csvUpdated = false) := by
  intro todo
  induction todo with
  | nil =>
    intro processed attempted results file
    refine ⟨fun _ => ?_, ?_⟩
    · show (!dry_run && results.any (fun r => r.success)) =
        (!dry_run && results.reverse.any (fun r => r.success))
      rw [List.any_reverse]
    · intro e he
      simp [run_go] at he
  | cons u rest ih =>
    intro processed attempted results file
    simp only [run_go]
    cases hs : step u with
    | error e =>
      refine ⟨?_, fun e2 _ => rfl⟩
      intro h
      simp at h
    | ok r => exact ih _ _ _ _

/-- C5 counterexample: a reachable successful restore run whose roster row
has the non-empty account-id cell `" abc "`; the rewrite overwrites that
cell with `"abc"` even though it was not previously empty (and the column
not absent), contradicting the claim that the identity-id column is filled
only in those cases. -/
theorem C5_cex_account_id_overwritten :
    load_csv ["email", "User id", "status"]
      [[("email", "a@x.com"), ("User id", " abc "), ("status", "suspended")]]
      "restore" false =
      .ok [{ email := "a@x.com", account_id := some "abc" }] ∧
    (process_user { email := "a@x.com", account_id := some "abc" } "restore" false 1 none
      (SubResp.http 204, SubResp.http 204) (SubResp.http 204, SubResp.http 204)).1 =
      .ok { email := "a@x.com", account_id := some "abc", success := true,
            message := "Lifecycle enabled | Access restored",
            lifecycle_action := some "enabled", access_action := some "restored",
            user_obj := some { email := "a@x.com", account_id := some "abc" } } ∧
    pyStrip " abc " ≠ "" ∧
    update_csv_statuses
      { headers := ["email", "User id", "status"],
        rows := [[("email", "a@x.com"), ("User id", " abc "), ("status", "suspended")]] }
      [{ email := "a@x.com", account_id := some "abc", success := true,
         message := "Lifecycle enabled | Access restored",
         lifecycle_action := some "enabled", access_action := some "restored",
         user_obj := some { email := "a@x.com", account_id := some "abc" } }]
      "restore" =
      { headers := ["email", "User id", "status", "User name"],
        rows := [[("email", "a@x.com"), ("User id", "abc"), ("status", "active"),
                  ("User name", "")]] } ∧
    (" abc " : String) ≠ "abc" := by decide

/-- C5 (amended): the rewrite runs only after a clean live run with at least
one success; for each successful result the first row matching by
case-insensitive email is updated: the status cell is set to `suspended`
(suspend) resp. `active` (restore); the account-id cell is overwritten
whenever the enriched record carries an account id — regardless of the
cell's previous contents; the display-name cell is filled only if the record
has a name and the cell was previously empty. -/
theorem C5_roster_rewrite_rules (sc ic nc ns ec : String) (u : User) (row : Row)
    (rest : List Row) (res : ProcessingResult)
    (h1 : ¬ sc = ic) (h2 : ¬ sc = nc) (h3 : ¬ ic = nc) :
    (newStatusFor "suspend" = "suspended" ∧ newStatusFor "restore" = "active") ∧
    rowGet (updateMatchedRow sc ic nc ns u row) sc = ns ∧
    (optTruthy u.account_id = true →
      rowGet (updateMatchedRow sc ic nc ns u row) ic = u.account_id.getD "") ∧
    (optTruthy u.account_id = false →
      rowGet (updateMatchedRow sc ic nc ns u row) ic = rowGet row ic) ∧
    (optTruthy u.name = true → pyStrip (rowGet row nc) = "" →
      rowGet (updateMatchedRow sc ic nc ns u row) nc = u.name.getD "") ∧
    (¬ pyStrip (rowGet row nc) = "" →
      rowGet (updateMatchedRow sc ic nc ns u row) nc = rowGet row nc) ∧
    (pyLower (pyStrip (rowGet row ec)) = pyLower res.email → res.user_obj = some u →
      applyResultToRows ec sc ic nc ns res (row :: rest) =
        (updateMatchedRow sc ic nc ns u row :: rest, true)) ∧
    (∀ {ε : Type} (loaded : List String) (users : List User)
      (step : User → Except ε ProcessingResult) (dry_run : Bool)
      (initialFile : Option (List String)),
      ((run_process loaded users step dry_run initialFile).result = .ok () →
        (run_process loaded users step dry_run initialFile).csvUpdated =
          (!dry_run &&
            (run_process loaded users step dry_run initialFile).results.any
              (fun r => r.success))) ∧
      (∀ e, (run_process loaded users step dry_run initialFile).result = .error e →
        (run_process loaded users step dry_run initialFile).csvUpdated = false)) := by
  have h1s : ¬ ic = sc := fun hh => h1 hh.symm
  have h2s : ¬ nc = sc := fun hh => h2 hh.symm
  have h3s : ¬ nc = ic := fun hh => h3 hh.symm
  refine ⟨⟨by decide, by decide⟩,
    updateMatchedRow_status sc ic nc ns u row h1 h2,
    fun hid => updateMatchedRow_id_set sc ic nc ns u row h3 hid,
    fun hid => updateMatchedRow_id_kept sc ic nc ns u row h1s h3 hid,
    fun hn hempty => updateMatchedRow_name_fill sc ic nc ns u row h2s h3s hn hempty,
    fun hne => updateMatchedRow_name_kept sc ic nc ns u row h2s h3s hne,
    fun hmatch hobj => applyResult_first_match ec sc ic nc ns u row rest res hmatch hobj,
    fun loaded users step dry_run initialFile =>
      run_go_csvUpdated step dry_run _ _ _ _ _⟩

/-- C5 witness. -/
theorem C5_roster_rewrite_rules_witness :
    rowGet (updateMatchedRow "status" "User id" "User name" "suspended"
      { email := "a@x.com", account_id := some "z", name := some "Al" }
      [("email", "a@x.com"), ("User id", "old"), ("status", "active"),
       ("User name", "kept")]) "status" = "suspended" ∧
    rowGet (updateMatchedRow "status" "User id" "User name" "suspended"
      { email := "a@x.com", account_id := some "z", name := some "Al" }
      [("email", "a@x.com"), ("User id", "old"), ("status", "active"),
       ("User name", "kept")]) "User id" = "z" ∧
    rowGet (updateMatchedRow "status" "User id" "User name" "suspended"
      { email := "a@x.com", account_id := some "z", name := some "Al" }
      [("email", "a@x.com"), ("User id", "old"), ("status", "active"),
       ("User name", "kept")]) "User name" = "kept" :=
  have h := C5_roster_rewrite_rules "status" "User id" "User name" "suspended" "email"
    { email := "a@x.com", account_id := some "z", name := some "Al" }
    [("email", "a@x.com"), ("User id", "old"), ("status", "active"),
     ("User name", "kept")] []
    { email := "a@x.com", account_id := some "z", success := true, message := "m" }
    (by decide) (by decide) (by decide)
  ⟨h.2.1, by
    rw [h.2.2.1 (by decide)]
    decide,
   by
    rw [h.2.2.2.2.2.1 (by decide)]
    decide⟩

/-- C9: the checkpoint skip test uses exact string membership while Loader
deduplication and roster-rewrite matching case-fold: with checkpoint
`{"A@X.COM"}`, the roster record `a@x.com` is reprocessed on resume, while
the same two spellings are merged by the Loader and matched by the rewrite.
-/
theorem C9_checkpoint_skip_case_sensitive :
    (run_process ["A@X.COM"] [{ email := "a@x.com" }]
      (fun u => (.ok { email := u.email, account_id := none, success := true,
                       message := "ok" } : Except String ProcessingResult))
      false none).attempted = ["a@x.com"] ∧
    load_csv ["email"] [[("email", "A@X.COM")], [("email", "a@x.com")]] "suspend" true =
      .ok [{ email := "A@X.COM" }] ∧
    update_csv_statuses
      { headers := ["email", "status"], rows := [[("email", "A@X.COM"), ("status", "")]] }
      [{ email := "a@x.com", account_id := some "id9", success := true, message := "m",
         user_obj := some { email := "a@x.com", account_id := some "id9" } }] "suspend" =
      { headers := ["email", "status", "User id", "User name"],
        rows := [[("email", "A@X.COM"), ("status", "suspended"), ("User id", "id9"),
                  ("User name", "")]] } := by decide

/-! ## `AtlassianUserRepository.find_user`

The remote side is a deterministic server: one `PageResp` per
`(directory, cursor)` request.  The Python `while True` has no bound, so the
embedding spends one fuel unit per page request; `outOfFuel` marks a search
still running after `fuel` requests. -/

/-- One user record of a page response (`data[i]`). -/
structure RemoteUser where
  email : String
  accountId : Option String := none
  name : Option String := none
  status : Option String := none
  accountType : Option String := none
deriving Repr, DecidableEq

/-- One page response: HTTP status, `data`, and the `links.next` cursor. -/
structure PageResp where
  status : Nat
  data : List RemoteUser
  next : Option String := none
deriving Repr, DecidableEq

/-- A deterministic remote server. -/
abbrev Server := String → Option String → PageResp

/-- Observable outcome of the bounded search. -/
inductive SearchResult where
  | found (u : User)
  | notFound
  | outOfFuel
deriving Repr, DecidableEq

/-- The `User` built from a matching page record. -/
def mkFoundUser (ud : RemoteUser) (dirId : String) : User :=
  { email := ud.email, account_id := ud.accountId, name := ud.name,
    status := ud.status, account_type := ud.accountType, directory_id := some dirId }

/-- `find_user(email)`: iterate the directories; per directory, page through
the users.  A non-200 response executes `continue`, which re-issues the same
request (same directory, same cursor).  A 200 page is scanned for the first
case-insensitive email match; afterwards a truthy `links.next` continues in
the same directory, anything else moves to the next directory with a fresh
cursor. -/
def find_user_fuel (server : Server) (email : String) :
    Nat → List String → Option String → SearchResult
  | _, [], _ => .notFound
  | 0, _ :: _, _ => .outOfFuel
  | fuel + 1, d :: rest, cursor =>
    let resp := server d cursor
    if resp.status ≠ 200 then
      find_user_fuel server email fuel (d :: rest) cursor
    else
      match resp.data.find? (fun ud => pyLower ud.email == pyLower email) with
      | some ud => .found (mkFoundUser ud d)
      | none =>
        match resp.next with
        | some c =>
          if c = "" then find_user_fuel server email fuel rest none
          else find_user_fuel server email fuel (d :: rest) (some c)
        | none => find_user_fuel server email fuel rest none

/-- Modelled from the spec, not from the source, for comparison: the spec
says a failed page request "skips that page" and continues "with the
remaining pages"; the next-page cursor being unobtainable from the failed
response, the remaining pages are those of the remaining directories. -/
def find_user_spec_skip (server : Server) (email : String) :
    Nat → List String → Option String → SearchResult
  | _, [], _ => .notFound
  | 0, _ :: _, _ => .outOfFuel
  | fuel + 1, d :: rest, cursor =>
    let resp := server d cursor
    if resp.status ≠ 200 then
      find_user_spec_skip server email fuel rest none
    else
      match resp.data.find? (fun ud => pyLower ud.email == pyLower email) with
      | some ud => .found (mkFoundUser ud d)
      | none =>
        match resp.next with
        | some c =>
          if c = "" then find_user_spec_skip server email fuel rest none
          else find_user_spec_skip server email fuel (d :: rest) (some c)
        | none => find_user_spec_skip server email fuel rest none

/-- A failing current page leaves the search state unchanged, so the search
never terminates on it: whatever the fuel, the outcome is `outOfFuel`. -/
lemma find_user_stuck_on_failing_page (server : Server) (email d : String)
    (rest : List String) (cursor : Option String)
    (hfail : (server d cursor).status ≠ 200) :
    ∀ fuel, find_user_fuel server email fuel (d :: rest) cursor = .outOfFuel := by
  intro fuel
  induction fuel with
  | zero => rfl
  | succ n ih =>
    simp only [find_user_fuel]
    rw [if_pos hfail]
    exact ih

/-- A finite chain of HTTP-200 pages presented by the server for directory
`d`, starting at `cursor` and linked by truthy `links.next` cursors; the
final page carries no truthy cursor (absent or the falsy `""`). -/
inductive PageChain (server : Server) (d : String) : Option String → List PageResp → Prop
  | last (cursor : Option String) (p : PageResp) (hserver : server d cursor = p)
      (hstatus : p.status = 200) (hnext : p.next = none ∨ p.next = some "") :
      PageChain server d cursor [p]
  | cons (cursor : Option String) (p : PageResp) (c : String) (ps : List PageResp)
      (hserver : server d cursor = p) (hstatus : p.status = 200)
      (hnext : p.next = some c) (hcne : c ≠ "")
      (hrest : PageChain server d (some c) ps) :
      PageChain server d cursor (p :: ps)

/-- The full annotated listing across directories: every page's users, in
directory order, then page (cursor) order, then in-page order. -/
def listingUsers (pages : String → List PageResp) (dirs : List String) :
    List (RemoteUser × String) :=
  dirs.flatMap (fun d => ((pages d).flatMap (fun p => p.data)).map (fun ud => (ud, d)))

lemma find?_fst_map_pair (uds : List RemoteUser) (d email : String) :
    (uds.map (fun ud => (ud, d))).find? (fun x => pyLower x.1.email == pyLower email) =
      (uds.find? (fun ud => pyLower ud.email == pyLower email)).map (fun ud => (ud, d)) := by
  induction uds with
  | nil => rfl
  | cons u rest ih =>
    simp only [List.map_cons, List.find?_cons]
    cases hc : (pyLower u.email == pyLower email) with
    | true => rfl
    | false => exact ih

/-- Paging through one directory: the search spends one fuel unit per page
of the chain, returns the first case-insensitive match found on the way, and
otherwise moves on to the remaining directories with a fresh cursor. -/
lemma find_user_follows_chain (server : Server) (email d : String) (rest : List String)
    {cursor : Option String} {ps : List PageResp}
    (h : PageChain server d cursor ps) :
    ∀ fuel,
      find_user_fuel server email (ps.length + fuel) (d :: rest) cursor =
        (match (ps.flatMap (fun p => p.data)).find?
            (fun ud => pyLower ud.email == pyLower email) with
         | some ud => .found (mkFoundUser ud d)
         | none => find_user_fuel server email fuel rest none) := by
  induction h with
  | last cursor p hserver hstatus hnext =>
    intro fuel
    have hlen : ([p] : List PageResp).length + fuel = fuel + 1 := by
      simp [Nat.add_comm]
    rw [hlen]
    simp only [find_user_fuel]
    rw [hserver]
    rw [if_neg (by rw [hstatus]; exact fun hc => hc rfl)]
    rw [List.flatMap_cons, List.flatMap_nil, List.append_nil]
    cases hm : p.data.find? (fun ud => pyLower ud.email == pyLower email) with
    | some ud => rfl
    | none =>
      rcases hnext with hn | hn <;> simp [hn]
  | cons cursor p c ps hserver hstatus hnext hcne hrest ih =>
    intro fuel
    have hlen : (p :: ps).length + fuel = (ps.length + fuel) + 1 := by
      simp only [List.length_cons]
      omega
    rw [hlen]
    simp only [find_user_fuel]
    rw [hserver]
    rw [if_neg (by rw [hstatus]; exact fun hc => hc rfl)]
    rw [List.flatMap_cons, List.find?_append]
    cases hm : p.data.find? (fun ud => pyLower ud.email == pyLower email) with
    | some ud => rfl
    | none =>
      simp only [hnext]
      rw [if_neg hcne]
      rw [ih fuel]
      rfl

/-- Full traversal: against a server presenting, for each directory, a
finite chain of 200-pages, the search (given fuel for the whole listing)
returns the first case-insensitive match of the full paginated listing
across all directories, or not-found. -/
lemma find_user_full_listing (server : Server) (email : String)
    (pages : String → List PageResp) :
    ∀ dirs : List String,
      (∀ d ∈ dirs, PageChain server d none (pages d)) →
      ∀ fuel,
        find_user_fuel server email
            ((dirs.map (fun d => (pages d).length)).sum + fuel) dirs none =
          (match (listingUsers pages dirs).find?
              (fun x => pyLower x.1.email == pyLower email) with
           | some x => .found (mkFoundUser x.1 x.2)
           | none => .notFound) := by
  intro dirs
  induction dirs with
  | nil =>
    intro _ fuel
    rw [show ((([] : List String).map (fun d => (pages d).length)).sum + fuel) = fuel
      from by simp]
    cases fuel <;> rfl
  | cons d rest ih =>
    intro hch fuel
    have hsum : (((d :: rest).map (fun x => (pages x).length)).sum + fuel) =
        (pages d).length + ((rest.map (fun x => (pages x).length)).sum + fuel) := by
      simp [List.map_cons, List.sum_cons, Nat.add_assoc]
    rw [hsum]
    rw [find_user_follows_chain server email d rest (hch d (List.mem_cons_self d rest))]
    simp only [listingUsers, List.flatMap_cons]
    rw [List.find?_append, find?_fst_map_pair]
    cases hm : ((pages d).flatMap (fun p => p.data)).find?
        (fun ud => pyLower ud.email == pyLower email) with
    | some ud => rfl
    | none => exact ih (fun d2 hd2 => hch d2 (List.mem_cons_of_mem _ hd2)) fuel

/-- A server whose directory `d1` persistently fails with HTTP 500 and whose
directory `d2` holds the sought user. -/
def serverFailD1 : Server := fun d _ =>
  if d = "d1" then { status := 500, data := [] }
  else { status := 200, data := [{ email := "T@x.com", accountId := some "acc" }] }

/-- The four pages of the paginated witness server. -/
def pageD1a : PageResp :=
  { status := 200, data := [{ email := "u1@x.com" }], next := some "p2" }

/-- Second page of directory `d1`, carrying the falsy cursor `""`. -/
def pageD1b : PageResp :=
  { status := 200, data := [{ email := "u2@x.com" }], next := some "" }

/-- First page of directory `d2`. -/
def pageD2a : PageResp :=
  { status := 200, data := [{ email := "u3@x.com" }], next := some "q2" }

/-- Second page of directory `d2`, holding the sought user. -/
def pageD2b : PageResp :=
  { status := 200, data := [{ email := "T@x.com", accountId := some "acc" }] }

/-- An all-200 server with two cursor-linked pages per directory; the sought
user sits on the second page of the second directory. -/
def serverPaged : Server := fun d c =>
  match d, c with
  | "d1", none => pageD1a
  | "d1", some _ => pageD1b
  | _, none => pageD2a
  | _, some _ => pageD2b

/-- The page chains `serverPaged` presents per directory. -/
def pagesPaged : String → List PageResp := fun d =>
  if d = "d1" then [pageD1a, pageD1b] else [pageD2a, pageD2b]

lemma pageChain_d1 : PageChain serverPaged "d1" none [pageD1a, pageD1b] :=
  PageChain.cons none pageD1a "p2" [pageD1b] rfl rfl rfl (by decide)
    (PageChain.last (some "p2") pageD1b rfl rfl (Or.inr rfl))

lemma pageChain_d2 : PageChain serverPaged "d2" none [pageD2a, pageD2b] :=
  PageChain.cons none pageD2a "q2" [pageD2b] rfl rfl rfl (by decide)
    (PageChain.last (some "q2") pageD2b rfl rfl (Or.inl rfl))

/-- C8 counterexample: with directory `d1` persistently failing and the
sought user in directory `d2`, the code is still re-requesting `d1`'s first
page after 50 and after 500 page requests (it never skips the failed page
and never reaches `d2`), whereas the spec's skip-and-continue reading finds
the user. -/
theorem C8_cex_failing_page_not_skipped :
    find_user_fuel serverFailD1 "t@x.com" 50 ["d1", "d2"] none = .outOfFuel ∧
    find_user_fuel serverFailD1 "t@x.com" 500 ["d1", "d2"] none = .outOfFuel ∧
    find_user_spec_skip serverFailD1 "t@x.com" 50 ["d1", "d2"] none =
      .found { email := "T@x.com", account_id := some "acc",
               directory_id := some "d2" } :=
  ⟨find_user_stuck_on_failing_page serverFailD1 "t@x.com" "d1" ["d2"] none (by decide) 50,
   find_user_stuck_on_failing_page serverFailD1 "t@x.com" "d1" ["d2"] none (by decide) 500,
   by decide⟩

/-- C8 (amended): `find_user` matches case-insensitively against the full
paginated listing across all directories — against a server presenting, for
each directory, a finite chain of 200-pages linked by truthy `links.next`
cursors, it returns the first match of the flattened listing (directory
order, page order, in-page order) or not-found; but a non-2xx page response
is not skipped: the `continue` re-issues the identical request, so under a
persistently failing page the search loops on that page forever and never
reaches the remaining pages. -/
theorem C8_find_user_search (server : Server) (email d : String)
    (rest : List String) (cursor : Option String)
    (pages : String → List PageResp) :
    ((server d cursor).status ≠ 200 →
      (∀ fuel, find_user_fuel server email (fuel + 1) (d :: rest) cursor =
        find_user_fuel server email fuel (d :: rest) cursor) ∧
      (∀ fuel, find_user_fuel server email fuel (d :: rest) cursor = .outOfFuel)) ∧
    (∀ dirs : List String,
      (∀ d2 ∈ dirs, PageChain server d2 none (pages d2)) →
      ∀ fuel,
        find_user_fuel server email
            ((dirs.map (fun d2 => (pages d2).length)).sum + fuel) dirs none =
          (match (listingUsers pages dirs).find?
              (fun x => pyLower x.1.email == pyLower email) with
           | some x => .found (mkFoundUser x.1 x.2)
           | none => .notFound)) := by
  refine ⟨fun hfail => ⟨fun fuel => ?_,
    find_user_stuck_on_failing_page server email d rest cursor hfail⟩,
    find_user_full_listing server email pages⟩
  simp only [find_user_fuel]
  rw [if_pos hfail]

/-- C8 witness: the persistently failing page is still being retried after 7
requests; and on the four-page two-directory server the search follows the
cursors (including the falsy `""` one ending directory `d1`) and finds
`T@x.com` case-insensitively on the second page of `d2` in exactly 4
requests. -/
theorem C8_find_user_search_witness :
    find_user_fuel serverFailD1 "t@x.com" 7 ["d1", "d2"] none = .outOfFuel ∧
    find_user_fuel serverPaged "t@x.com" 4 ["d1", "d2"] none =
      .found { email := "T@x.com", account_id := some "acc",
               directory_id := some "d2" } := by
  constructor
  · exact ((C8_find_user_search serverFailD1 "t@x.com" "d1" ["d2"] none
      (fun _ => [])).1 (by decide)).2 7
  · have hch : ∀ d2 ∈ ["d1", "d2"], PageChain serverPaged d2 none (pagesPaged d2) := by
      intro d2 hd2
      rcases List.mem_cons.mp hd2 with h | h
      · subst h
        rw [show pagesPaged "d1" = [pageD1a, pageD1b] from rfl]
        exact pageChain_d1
      rcases List.mem_cons.mp h with h2 | h2
      · subst h2
        rw [show pagesPaged "d2" = [pageD2a, pageD2b] from rfl]
        exact pageChain_d2
      · cases h2
    have h := (C8_find_user_search serverPaged "t@x.com" "d1" [] none pagesPaged).2
      ["d1", "d2"] hch 0
    rw [show ((["d1", "d2"].map (fun d2 => (pagesPaged d2).length)).sum + 0) = 4
      from by decide] at h
    rw [h]
    decide

end AtlassianCLI
